import Mathlib

/-!
Verification of the zeroconf mDNS/DNS-SD client engine (NullYing/zeroconf).

This file shallowly embeds the record-correlation loop (`client.mainloop`),
the query builder (`client.query`), the send path (`client.sendQuery`), the
socket factory (`joinUdp4Multicast` / `joinUdp6Multicast` and
`listMulticastInterfaces` from connection.go), and the construction and
teardown of the client (`newClient` / `client.shutdown`), and proves the
properties stated for the engine about these definitions.

IP addresses are modelled as byte lists (`List Nat`); a `nil` Go IP is the
empty list.  Strings are Go strings; the Go helpers `strings.Replace`,
`strings.HasSuffix` and the dot-trimming helper are embedded over character
lists so that all definitions evaluate inside the kernel.
-/

namespace Zeroconf

/-- Go `strings.HasSuffix s suf`. -/
def hasSuffix (s suf : String) : Bool :=
  List.isSuffixOf suf.data s.data

/-- Modelled from the spec: the `trimDot` helper of the repository's service
helpers (the service/record file is not under src/); it trims leading and
trailing dots, as Go `strings.Trim(s, ".")` does. -/
def trimDot (s : String) : String :=
  String.mk (((s.data.dropWhile (· == '.')).reverse.dropWhile (· == '.')).reverse)

/-- Fuel-indexed core of Go `strings.Replace(s, old, new, -1)` (replace all
non-overlapping occurrences, left to right).  The fuel is only a structural
termination device; `s.length` fuel always suffices because every step
consumes at least one character of `s`. -/
def replaceAllCore : Nat → List Char → List Char → List Char → List Char
  | 0, _, _, s => s
  | _ + 1, _, _, [] => []
  | fuel + 1, old, nw, c :: rest =>
    if old ≠ [] ∧ old.isPrefixOf (c :: rest) then
      nw ++ replaceAllCore fuel old nw ((c :: rest).drop old.length)
    else
      c :: replaceAllCore fuel old nw rest

/-- Go `strings.Replace(s, old, new, -1)` for non-empty `old` (as used with
the service name, which always ends in a dot). -/
def replaceAll (s old nw : String) : String :=
  String.mk (replaceAllCore s.data.length old.data nw.data s.data)

/-- Go `strings.Replace(s, old, new, 1)` for non-empty `old`: replace only
the first occurrence. -/
def replaceFirstCore (old nw : List Char) : List Char → List Char
  | [] => []
  | c :: rest =>
    if old ≠ [] ∧ old.isPrefixOf (c :: rest) then
      nw ++ (c :: rest).drop old.length
    else
      c :: replaceFirstCore old nw rest

/-- String wrapper for `replaceFirstCore`. -/
def replaceFirst (s old nw : String) : String :=
  String.mk (replaceFirstCore old.data nw.data s.data)

/-- A network IP address as its byte sequence; the empty list models a Go
`nil` IP (whose `len` is 0). -/
abbrev IPBytes := List Nat

/-- Modelled from the spec (§3, the service/record file is not under src/):
the identity of a DNS-SD service class, with instance, type, subtypes and
domain. -/
structure ServiceRecord where
  Instance : String
  Service : String
  Subtypes : List String
  Domain : String
  deriving DecidableEq

/-- Modelled from the spec: ServiceName = `<type>.<domain>.`, matching the
formatting `client.query` performs in reuseport_windows.go line 594. -/
def ServiceRecord.ServiceName (s : ServiceRecord) : String :=
  trimDot s.Service ++ "." ++ trimDot s.Domain ++ "."

/-- Modelled from the spec: ServiceInstanceName = `<instance>.<type>.<domain>.`
when the instance is set, empty otherwise. -/
def ServiceRecord.ServiceInstanceName (s : ServiceRecord) : String :=
  if s.Instance = "" then "" else s.Instance ++ "." ++ s.ServiceName

/-- Modelled from the spec: ServiceTypeName = `_services._dns-sd._udp.<domain>.`,
the DNS-SD service-type-enumeration meta query name. -/
def ServiceRecord.ServiceTypeName (s : ServiceRecord) : String :=
  "_services._dns-sd._udp." ++ trimDot s.Domain ++ "."

/-- The per-session lookup parameters (`lookupParams`): a service record plus
the browse-vs-lookup flag.  The output channel and the probe-stop signal are
modelled by the emission list and the `probingDisabled` flag of `State`. -/
structure lookupParams extends ServiceRecord where
  isBrowsing : Bool
  deriving DecidableEq

/-- Modelled from the spec: `newLookupParams` builds params from instance,
service and domain (subtypes empty, filled in later by Browse). -/
def newLookupParams (inst svc dom : String) (isB : Bool) : lookupParams :=
  { Instance := inst, Service := svc, Subtypes := [], Domain := dom, isBrowsing := isB }

/-- `defaultParams` from reuseport_windows.go line 190. -/
def defaultParams (svc : String) : lookupParams :=
  newLookupParams "" svc "local" false

/-- The parameter set a `Resolver.Lookup` call hands to its session
(reuseport_windows.go lines 163-169): default params, instance set, domain
overridden when non-empty, `isBrowsing` left false. -/
def lookupSessionParams (inst svc dom : String) : lookupParams :=
  let p := defaultParams svc
  let p := { p with Instance := inst }
  if dom ≠ "" then { p with Domain := dom } else p

/-- The parameter set a `Resolver.Browse` call hands to its session
(reuseport_windows.go lines 135-142). -/
def browseSessionParams (svc dom : String) (subtypes : List String) : lookupParams :=
  let p := defaultParams svc
  let p := if dom ≠ "" then { p with Domain := dom } else p
  { p with Subtypes := subtypes, isBrowsing := true }

/-- `ServiceEntry`: the observable unit delivered to consumers.  The
identifying fields mirror the embedded ServiceRecord; `SrcAddr` is the source
address of the datagram that carried the SRV record. -/
structure ServiceEntry where
  Instance : String
  Service : String
  Domain : String
  HostName : String
  Port : Nat
  Text : List String
  TTL : Nat
  AddrIPv4 : List IPBytes
  AddrIPv6 : List IPBytes
  SrcAddr : IPBytes
  deriving DecidableEq

/-- Modelled from the spec: `NewServiceEntry` constructs an entry with the
identifying triple set and every other field zero. -/
def NewServiceEntry (inst svc dom : String) : ServiceEntry :=
  { Instance := inst, Service := svc, Domain := dom, HostName := "", Port := 0,
    Text := [], TTL := 0, AddrIPv4 := [], AddrIPv6 := [], SrcAddr := [] }

/-- A DNS resource record, restricted to the record types `client.mainloop`
inspects; every other type falls into `other` and is ignored. -/
inductive RR where
  | ptr (name : String) (ttl : Nat) (ptrTarget : String)
  | srv (name : String) (ttl : Nat) (target : String) (port : Nat)
  | txt (name : String) (ttl : Nat) (txtData : List String)
  | a (name : String) (addr : IPBytes)
  | aaaa (name : String) (addr : IPBytes)
  | other
  deriving DecidableEq

/-- A parsed DNS message paired with its datagram source address (`dnsMsg`);
`src = none` models a source that is not a `*net.UDPAddr`. -/
structure DnsMsg where
  answer : List RR
  ns : List RR
  extra : List RR
  src : Option IPBytes
  deriving DecidableEq

/-- `sections := append(msg.Answer, msg.Ns...)` then `append(sections, msg.Extra...)`
(reuseport_windows.go lines 313-314). -/
def DnsMsg.sections (m : DnsMsg) : List RR :=
  m.answer ++ m.ns ++ m.extra

/-- The transient `entries` map and the `sentEntries` map, as association
lists keyed by instance FQDN (Go map iteration order does not affect any
per-key result of the loop). -/
abbrev Entries := List (String × ServiceEntry)

/-- Key membership in an association list (`_, ok := m[k]`). -/
def alContains (l : Entries) (k : String) : Bool :=
  l.any (fun kv => kv.1 == k)

/-- Lookup in an association list (`m[k]`). -/
def alLookup (l : Entries) (k : String) : Option ServiceEntry :=
  (l.find? (fun kv => kv.1 == k)).map (·.2)

/-- Update the value stored at key `k` in place. -/
def alSet (l : Entries) (k : String) (f : ServiceEntry → ServiceEntry) : Entries :=
  l.map (fun kv => if kv.1 == k then (kv.1, f kv.2) else kv)

/-- `delete(m, k)`. -/
def alErase (l : Entries) (k : String) : Entries :=
  l.filter (fun kv => !(kv.1 == k))

/-- `m[k] = v`. -/
def alInsert (l : Entries) (k : String) (v : ServiceEntry) : Entries :=
  if alContains l k then alSet l k (fun _ => v) else l ++ [(k, v)]

/-- `if _, ok := m[k]; !ok { m[k] = d }` (create the entry on first sight). -/
def alEnsure (l : Entries) (k : String) (d : ServiceEntry) : Entries :=
  if alContains l k then l else l ++ [(k, d)]

/-- Pass 1 of the correlator (reuseport_windows.go lines 316-367): one
resource record updates the transient `entries` map.  PTR, SRV and TXT
records create/update entries; everything else is ignored here. -/
def pass1Step (p : lookupParams) (src : Option IPBytes) (es : Entries) (rr : RR) : Entries :=
  match rr with
  | .ptr name ttl ptrTarget =>
    if p.toServiceRecord.ServiceName ≠ name then es
    else if p.toServiceRecord.ServiceInstanceName ≠ "" ∧
            p.toServiceRecord.ServiceInstanceName ≠ ptrTarget then es
    else
      let es1 := alEnsure es ptrTarget
        (NewServiceEntry (trimDot (replaceAll ptrTarget name "")) p.Service p.Domain)
      alSet es1 ptrTarget (fun e => { e with TTL := ttl })
  | .srv name ttl target port =>
    if p.toServiceRecord.ServiceInstanceName ≠ "" ∧
       p.toServiceRecord.ServiceInstanceName ≠ name then es
    else if hasSuffix name p.toServiceRecord.ServiceName = false then es
    else
      let es1 := alEnsure es name
        (NewServiceEntry (trimDot (replaceFirst name p.toServiceRecord.ServiceName ""))
          p.Service p.Domain)
      alSet es1 name (fun e =>
        let e := match src with
          | some ip => { e with SrcAddr := ip }
          | none => e
        { e with HostName := target, Port := port, TTL := ttl })
  | .txt name ttl txtData =>
    if p.toServiceRecord.ServiceInstanceName ≠ "" ∧
       p.toServiceRecord.ServiceInstanceName ≠ name then es
    else if hasSuffix name p.toServiceRecord.ServiceName = false then es
    else
      let es1 := alEnsure es name
        (NewServiceEntry (trimDot (replaceFirst name p.toServiceRecord.ServiceName ""))
          p.Service p.Domain)
      alSet es1 name (fun e => { e with Text := txtData, TTL := ttl })
  | _ => es

/-- Pass 2 of the correlator (reuseport_windows.go lines 369-384): each A
(resp. AAAA) record appends its address to every entry whose hostname equals
the record name. -/
def pass2Step (es : Entries) (rr : RR) : Entries :=
  match rr with
  | .a name addr =>
    es.map (fun kv =>
      if kv.2.HostName = name then (kv.1, { kv.2 with AddrIPv4 := kv.2.AddrIPv4 ++ [addr] })
      else kv)
  | .aaaa name addr =>
    es.map (fun kv =>
      if kv.2.HostName = name then (kv.1, { kv.2 with AddrIPv6 := kv.2.AddrIPv6 ++ [addr] })
      else kv)
  | _ => es

/-- The transient `entries` map built from one datagram: pass 1 over all
sections, then pass 2 over all sections. -/
def buildEntries (p : lookupParams) (m : DnsMsg) : Entries :=
  m.sections.foldl pass2Step (m.sections.foldl (pass1Step p m.src) [])

/-- Per-session correlator state: the `sentEntries` dedup map and whether
`params.disableProbing()` has fired (the `stopProbing` channel closed). -/
structure State where
  sent : Entries
  probingDisabled : Bool
  deriving DecidableEq

/-- The state at the top of `client.mainloop`: empty `sentEntries`, probing
active. -/
def initialState : State :=
  { sent := [], probingDisabled := false }

/-- The emission policy applied to a single entry that passed the TTL and
dedup gates (reuseport_windows.go lines 398-410): outside the DNS-SD
service-type enumeration case an entry with no address is either dropped
(no source address known) or patched by appending the datagram source
address to `AddrIPv4`. -/
def emitOne (p : lookupParams) (e : ServiceEntry) : Option ServiceEntry :=
  if p.toServiceRecord.ServiceTypeName ≠ p.toServiceRecord.ServiceName then
    if e.AddrIPv4 = [] ∧ e.AddrIPv6 = [] then
      if e.SrcAddr = [] then none
      else some { e with AddrIPv4 := e.AddrIPv4 ++ [e.SrcAddr] }
    else some e
  else some e

/-- The emission loop over the transient entries (reuseport_windows.go lines
387-419).  Returns the key-tagged entries pushed to `params.Entries` in
order, together with the updated state.  A TTL of 0 removes the key from
`sentEntries`; an already-sent key is skipped; an emission records the entry
in `sentEntries` and, for a non-browsing session, disables probing. -/
def emitLoop (p : lookupParams) : Entries → State → Entries × State
  | [], st => ([], st)
  | (k, e) :: rest, st =>
    if e.TTL = 0 then
      emitLoop p rest { st with sent := alErase st.sent k }
    else if alContains st.sent k then
      emitLoop p rest st
    else
      match emitOne p e with
      | none => emitLoop p rest st
      | some e1 =>
        let st1 : State :=
          { sent := alInsert st.sent k e1,
            probingDisabled := st.probingDisabled || !p.isBrowsing }
        let r := emitLoop p rest st1
        ((k, e1) :: r.1, r.2)

/-- One iteration of the mainloop message case: build the transient entries
from the datagram, then run the emission loop. -/
def processMsg (p : lookupParams) (st : State) (m : DnsMsg) : Entries × State :=
  emitLoop p (buildEntries p m) st

/-- The mainloop over a finite sequence of incoming datagrams, accumulating
everything emitted to the consumer. -/
def runMsgs (p : lookupParams) (st : State) : List DnsMsg → Entries × State
  | [] => ([], st)
  | m :: ms =>
    let r := processMsg p st m
    let r2 := runMsgs p r.2 ms
    (r.1 ++ r2.1, r2.2)

/-! ### Association-list lemmas -/

theorem alContains_iff {l : Entries} {k : String} :
    alContains l k = true ↔ k ∈ l.map Prod.fst := by
  simp [alContains, List.any_eq_true, List.mem_map]

theorem alContains_false_iff {l : Entries} {k : String} :
    alContains l k = false ↔ k ∉ l.map Prod.fst := by
  rw [← alContains_iff]
  cases alContains l k <;> simp

theorem alSet_keys (l : Entries) (k : String) (f : ServiceEntry → ServiceEntry) :
    (alSet l k f).map Prod.fst = l.map Prod.fst := by
  induction l with
  | nil => rfl
  | cons kv rest ih =>
    by_cases h : kv.1 = k <;> simp [alSet, h] at ih ⊢ <;> exact ih

theorem alInsert_keys_of_contains {l : Entries} {k : String} (v : ServiceEntry)
    (h : alContains l k = true) :
    (alInsert l k v).map Prod.fst = l.map Prod.fst := by
  simp [alInsert, h, alSet_keys]

theorem alContains_alInsert_self (l : Entries) (k : String) (v : ServiceEntry) :
    alContains (alInsert l k v) k = true := by
  by_cases h : alContains l k
  · rw [alContains_iff, alInsert_keys_of_contains v h, ← alContains_iff]
    exact h
  · rw [alContains_iff]
    simp only [Bool.not_eq_true] at h
    simp [alInsert, h]

theorem alContains_eq_keys (l : Entries) (k : String) :
    alContains l k = ((l.map Prod.fst).any (fun x => x == k)) := by
  induction l with
  | nil => rfl
  | cons kv rest ih => simp [alContains, List.any_cons] at ih ⊢; rw [ih]

theorem alContains_alInsert_ne {l : Entries} {k k1 : String} (v : ServiceEntry)
    (h : k ≠ k1) : alContains (alInsert l k1 v) k = alContains l k := by
  by_cases hc : alContains l k1
  · rw [alContains_eq_keys, alInsert_keys_of_contains v hc, ← alContains_eq_keys]
  · simp only [Bool.not_eq_true] at hc
    simp only [alInsert, hc, Bool.false_eq_true, if_false]
    rw [alContains_eq_keys, List.map_append, List.any_append, ← alContains_eq_keys]
    simp [Ne.symm h]

theorem alErase_keys_subset (l : Entries) (k : String) {x : String}
    (hx : x ∈ (alErase l k).map Prod.fst) : x ∈ l.map Prod.fst := by
  rcases List.mem_map.1 hx with ⟨kv, hkv, rfl⟩
  exact List.mem_map.2 ⟨kv, List.mem_of_mem_filter hkv, rfl⟩

theorem alContains_alErase_self (l : Entries) (k : String) :
    alContains (alErase l k) k = false := by
  rw [alContains_false_iff]
  intro h
  rcases List.mem_map.1 h with ⟨kv, hkv, rfl⟩
  have := List.of_mem_filter hkv
  simp at this

theorem alErase_of_not_contains {l : Entries} {k : String}
    (h : alContains l k = false) : alErase l k = l := by
  rw [alContains_false_iff] at h
  apply List.filter_eq_self.2
  intro kv hkv
  have hk : kv.1 ≠ k := fun hk => h (List.mem_map.2 ⟨kv, hkv, hk⟩)
  simp [hk]

theorem alContains_alErase_ne {l : Entries} {k k1 : String} (h : k ≠ k1) :
    alContains (alErase l k1) k = alContains l k := by
  by_cases hc : alContains l k
  · rw [hc, alContains_iff]
    rcases List.mem_map.1 (alContains_iff.1 hc) with ⟨kv, hkv, rfl⟩
    refine List.mem_map.2 ⟨kv, ?_, rfl⟩
    exact List.mem_filter.2 ⟨hkv, by simp [h]⟩
  · simp only [Bool.not_eq_true] at hc
    rw [hc, alContains_false_iff]
    intro hmem
    exact (alContains_false_iff.1 hc) (alErase_keys_subset l k1 hmem)

/-! ### Emission-loop invariants -/

theorem emitOne_ttl {p : lookupParams} {e e1 : ServiceEntry}
    (h : emitOne p e = some e1) : e1.TTL = e.TTL := by
  unfold emitOne at h
  split at h
  · split at h
    · split at h
      · exact absurd h (by simp)
      · cases h; rfl
    · cases h; rfl
  · cases h; rfl

theorem emitOne_addr {p : lookupParams} {e e1 : ServiceEntry}
    (hne : p.toServiceRecord.ServiceTypeName ≠ p.toServiceRecord.ServiceName)
    (h : emitOne p e = some e1) : 1 ≤ e1.AddrIPv4.length + e1.AddrIPv6.length := by
  unfold emitOne at h
  rw [if_pos hne] at h
  split at h
  · split at h
    · exact absurd h (by simp)
    · rename_i hboth _
      cases h
      simp [hboth.1]
  · rename_i hboth
    cases h
    rcases not_and_or.1 hboth with h4 | h6
    · have := List.length_pos.2 h4
      omega
    · have := List.length_pos.2 h6
      omega

theorem emitLoop_ttl (p : lookupParams) (es : Entries) (st : State) :
    ∀ ke ∈ (emitLoop p es st).1, ke.2.TTL ≠ 0 := by
  induction es generalizing st with
  | nil => intro ke h; simp [emitLoop] at h
  | cons kv rest ih =>
    obtain ⟨k, e⟩ := kv
    intro ke h
    simp only [emitLoop] at h
    split at h
    · exact ih _ ke h
    · split at h
      · exact ih _ ke h
      · split at h
        · exact ih _ ke h
        · rename_i httl _ _ e1 hm
          simp only [List.mem_cons] at h
          rcases h with rfl | h
          · rw [emitOne_ttl hm]
            exact httl
          · exact ih _ ke h

theorem emitLoop_addr (p : lookupParams) (es : Entries) (st : State)
    (hne : p.toServiceRecord.ServiceTypeName ≠ p.toServiceRecord.ServiceName) :
    ∀ ke ∈ (emitLoop p es st).1, 1 ≤ ke.2.AddrIPv4.length + ke.2.AddrIPv6.length := by
  induction es generalizing st with
  | nil => intro ke h; simp [emitLoop] at h
  | cons kv rest ih =>
    obtain ⟨k, e⟩ := kv
    intro ke h
    simp only [emitLoop] at h
    split at h
    · exact ih _ ke h
    · split at h
      · exact ih _ ke h
      · split at h
        · exact ih _ ke h
        · rename_i e1 hm
          simp only [List.mem_cons] at h
          rcases h with rfl | h
          · exact emitOne_addr hne hm
          · exact ih _ ke h

theorem emitLoop_keys_sublist (p : lookupParams) (es : Entries) (st : State) :
    List.Sublist ((emitLoop p es st).1.map Prod.fst) (es.map Prod.fst) := by
  induction es generalizing st with
  | nil => simp [emitLoop]
  | cons kv rest ih =>
    obtain ⟨k, e⟩ := kv
    simp only [emitLoop]
    split
    · exact (ih _).cons k
    · split
      · exact (ih _).cons k
      · split
        · exact (ih _).cons k
        · simpa using (ih _).cons₂ k

theorem emitLoop_sent_contains (p : lookupParams) (es : Entries) (st : State)
    (k : String) (hk : k ∉ es.map Prod.fst) :
    alContains (emitLoop p es st).2.sent k = alContains st.sent k := by
  induction es generalizing st with
  | nil => rfl
  | cons kv rest ih =>
    obtain ⟨k1, e⟩ := kv
    have hk1 : k ≠ k1 := fun h => hk (by simp [h])
    have hkr : k ∉ rest.map Prod.fst := fun h => hk (by simp [h])
    simp only [emitLoop]
    split
    · rw [ih _ hkr]
      exact alContains_alErase_ne hk1
    · split
      · exact ih _ hkr
      · split
        · exact ih _ hkr
        · rename_i e1 _
          rw [ih _ hkr]
          exact alContains_alInsert_ne e1 hk1

theorem emitLoop_probing_mono (p : lookupParams) (es : Entries) (st : State)
    (h : st.probingDisabled = true) :
    (emitLoop p es st).2.probingDisabled = true := by
  induction es generalizing st with
  | nil => exact h
  | cons kv rest ih =>
    obtain ⟨k, e⟩ := kv
    simp only [emitLoop]
    split
    · exact ih _ h
    · split
      · exact ih _ h
      · split
        · exact ih _ h
        · exact ih _ (by simp [h])

theorem emitLoop_probing_of_emit (p : lookupParams) (es : Entries) (st : State)
    (hb : p.isBrowsing = false) (h : (emitLoop p es st).1 ≠ []) :
    (emitLoop p es st).2.probingDisabled = true := by
  induction es generalizing st with
  | nil => exact absurd rfl h
  | cons kv rest ih =>
    obtain ⟨k, e⟩ := kv
    simp only [emitLoop] at h ⊢
    split at h
    · rename_i h0
      rw [if_pos h0]
      exact ih _ h
    · rename_i h0
      split at h
      · rename_i hc
        rw [if_neg h0, if_pos hc]
        exact ih _ h
      · rename_i hc
        rw [if_neg h0, if_neg hc]
        split at h
        · exact ih _ h
        · exact emitLoop_probing_mono p rest _ (by simp [hb])

/-! ### Unfolding equations for the emission loop -/

theorem emitLoop_cons_ttl0 (p : lookupParams) (k : String) (e : ServiceEntry)
    (rest : Entries) (st : State) (h0 : e.TTL = 0) :
    emitLoop p ((k, e) :: rest) st =
      emitLoop p rest { st with sent := alErase st.sent k } := by
  simp only [emitLoop, if_pos h0]

theorem emitLoop_cons_sent (p : lookupParams) (k : String) (e : ServiceEntry)
    (rest : Entries) (st : State) (h0 : e.TTL ≠ 0)
    (hc : alContains st.sent k = true) :
    emitLoop p ((k, e) :: rest) st = emitLoop p rest st := by
  simp only [emitLoop, if_neg h0, if_pos hc]

theorem emitLoop_cons_skip (p : lookupParams) (k : String) (e : ServiceEntry)
    (rest : Entries) (st : State) (h0 : e.TTL ≠ 0)
    (hc : alContains st.sent k = false) (hm : emitOne p e = none) :
    emitLoop p ((k, e) :: rest) st = emitLoop p rest st := by
  simp only [emitLoop, if_neg h0, hc, Bool.false_eq_true, hm]
  simp

theorem emitLoop_cons_emit (p : lookupParams) (k : String) (e : ServiceEntry)
    (rest : Entries) (st : State) (e1 : ServiceEntry) (h0 : e.TTL ≠ 0)
    (hc : alContains st.sent k = false) (hm : emitOne p e = some e1) :
    emitLoop p ((k, e) :: rest) st =
      ((k, e1) :: (emitLoop p rest
          { sent := alInsert st.sent k e1,
            probingDisabled := st.probingDisabled || !p.isBrowsing }).1,
        (emitLoop p rest
          { sent := alInsert st.sent k e1,
            probingDisabled := st.probingDisabled || !p.isBrowsing }).2) := by
  simp only [emitLoop, if_neg h0, hc, Bool.false_eq_true, hm]
  simp

/-- No entry keyed outside the processed entries list is ever emitted. -/
theorem emitLoop_not_mem_of_key (p : lookupParams) (es : Entries) (st : State)
    (k : String) (hk : k ∉ es.map Prod.fst) :
    ∀ x, (k, x) ∉ (emitLoop p es st).1 := by
  intro x hx
  exact hk ((emitLoop_keys_sublist p es st).subset (List.mem_map.2 ⟨(k, x), hx, rfl⟩))

/-- Replaying the same transient entries immediately after processing them
emits nothing and leaves the state unchanged (keys are unique in the
transient map, as `buildEntries` guarantees). -/
theorem emitLoop_idem (p : lookupParams) (es : Entries) (st : State)
    (hnd : (es.map Prod.fst).Nodup) :
    emitLoop p es (emitLoop p es st).2 = ([], (emitLoop p es st).2) := by
  induction es generalizing st with
  | nil => rfl
  | cons kv rest ih =>
    obtain ⟨k, e⟩ := kv
    simp only [List.map_cons, List.nodup_cons] at hnd
    obtain ⟨hk, hndr⟩ := hnd
    by_cases h0 : e.TTL = 0
    · rw [emitLoop_cons_ttl0 _ _ _ _ _ h0, emitLoop_cons_ttl0 _ _ _ _ _ h0]
      have hcon : alContains
          (emitLoop p rest { st with sent := alErase st.sent k }).2.sent k = false := by
        rw [emitLoop_sent_contains p rest _ k hk]
        exact alContains_alErase_self st.sent k
      rw [alErase_of_not_contains hcon]
      exact ih _ hndr
    · by_cases hc : alContains st.sent k
      · rw [emitLoop_cons_sent _ _ _ _ _ h0 hc]
        rw [emitLoop_cons_sent _ _ _ _ _ h0
          (by rw [emitLoop_sent_contains p rest _ k hk]; exact hc)]
        exact ih _ hndr
      · simp only [Bool.not_eq_true] at hc
        cases hm : emitOne p e with
        | none =>
          rw [emitLoop_cons_skip _ _ _ _ _ h0 hc hm]
          rw [emitLoop_cons_skip _ _ _ _ _ h0
            (by rw [emitLoop_sent_contains p rest _ k hk]; exact hc) hm]
          exact ih _ hndr
        | some e1 =>
          rw [emitLoop_cons_emit _ _ _ _ _ _ h0 hc hm]
          rw [emitLoop_cons_sent _ _ _ _ _ h0
            (by rw [emitLoop_sent_contains p rest _ k hk]
                exact alContains_alInsert_self st.sent k e1)]
          exact ih _ hndr

/-! ### Key uniqueness of the transient entries map -/

theorem alEnsure_keys_nodup {l : Entries} {k : String} {d : ServiceEntry}
    (h : (l.map Prod.fst).Nodup) : ((alEnsure l k d).map Prod.fst).Nodup := by
  unfold alEnsure
  split
  · exact h
  · rename_i hc
    rw [List.map_append]
    simp only [Bool.not_eq_true] at hc
    have hk : k ∉ l.map Prod.fst := alContains_false_iff.1 hc
    simp [List.nodup_append, h]
    intro x hx
    exact hk (List.mem_map.2 ⟨(k, x), hx, rfl⟩)

theorem pass1Step_keys_nodup (p : lookupParams) (src : Option IPBytes)
    (es : Entries) (rr : RR) (h : (es.map Prod.fst).Nodup) :
    ((pass1Step p src es rr).map Prod.fst).Nodup := by
  cases rr <;> simp only [pass1Step] <;> try exact h
  case ptr name ttl ptrTarget =>
    split
    · exact h
    · split
      · exact h
      · rw [alSet_keys]
        exact alEnsure_keys_nodup h
  case srv name ttl target port =>
    split
    · exact h
    · split
      · exact h
      · rw [alSet_keys]
        exact alEnsure_keys_nodup h
  case txt name ttl txtData =>
    split
    · exact h
    · split
      · exact h
      · rw [alSet_keys]
        exact alEnsure_keys_nodup h

theorem pass2Step_keys (es : Entries) (rr : RR) :
    (pass2Step es rr).map Prod.fst = es.map Prod.fst := by
  cases rr <;> simp only [pass2Step] <;> try rfl
  case a name addr =>
    rw [List.map_map]
    apply List.map_congr_left
    intro kv _
    by_cases h : kv.2.HostName = name <;> simp [h]
  case aaaa name addr =>
    rw [List.map_map]
    apply List.map_congr_left
    intro kv _
    by_cases h : kv.2.HostName = name <;> simp [h]

theorem foldl_pass1_keys_nodup (p : lookupParams) (src : Option IPBytes)
    (l : List RR) (es : Entries) (h : (es.map Prod.fst).Nodup) :
    ((l.foldl (pass1Step p src) es).map Prod.fst).Nodup := by
  induction l generalizing es with
  | nil => exact h
  | cons rr rest ih => exact ih _ (pass1Step_keys_nodup p src es rr h)

theorem foldl_pass2_keys (l : List RR) (es : Entries) :
    ((l.foldl pass2Step es).map Prod.fst) = es.map Prod.fst := by
  induction l generalizing es with
  | nil => rfl
  | cons rr rest ih => rw [List.foldl_cons, ih, pass2Step_keys]

theorem buildEntries_keys_nodup (p : lookupParams) (m : DnsMsg) :
    ((buildEntries p m).map Prod.fst).Nodup := by
  unfold buildEntries
  rw [foldl_pass2_keys]
  exact foldl_pass1_keys_nodup p m.src m.sections [] (by simp)

/-! ### Replay, goodbye and re-announcement characterisation -/

/-- Processing the same datagram again, immediately after processing it,
emits nothing and leaves the correlator state unchanged. -/
theorem processMsg_idem (p : lookupParams) (st : State) (m : DnsMsg) :
    processMsg p (processMsg p st m).2 m = ([], (processMsg p st m).2) := by
  unfold processMsg
  exact emitLoop_idem p _ st (buildEntries_keys_nodup p m)

/-- A transient entry with non-zero TTL, unsent key and a passing emission
decision is emitted. -/
theorem emitLoop_mem_emit (p : lookupParams) (es : Entries) (st : State)
    (k : String) (e e1 : ServiceEntry) (hnd : (es.map Prod.fst).Nodup)
    (hmem : (k, e) ∈ es) (h0 : e.TTL ≠ 0) (hc : alContains st.sent k = false)
    (hm : emitOne p e = some e1) : (k, e1) ∈ (emitLoop p es st).1 := by
  induction es generalizing st with
  | nil => cases hmem
  | cons kv rest ih =>
    obtain ⟨k2, e2⟩ := kv
    simp only [List.map_cons, List.nodup_cons] at hnd
    obtain ⟨hk2, hndr⟩ := hnd
    rcases List.mem_cons.1 hmem with heq | hmem2
    · injection heq with hkk hee
      subst hkk
      subst hee
      rw [emitLoop_cons_emit _ _ _ _ _ _ h0 hc hm]
      exact List.mem_cons_self _ _
    · have hkk : k ≠ k2 := fun h =>
        hk2 (h ▸ List.mem_map.2 ⟨(k, e), hmem2, rfl⟩)
      by_cases h02 : e2.TTL = 0
      · rw [emitLoop_cons_ttl0 _ _ _ _ _ h02]
        exact ih _ hndr hmem2 (by rw [alContains_alErase_ne hkk]; exact hc)
      · by_cases hc2 : alContains st.sent k2
        · rw [emitLoop_cons_sent _ _ _ _ _ h02 hc2]
          exact ih _ hndr hmem2 hc
        · simp only [Bool.not_eq_true] at hc2
          cases hm2 : emitOne p e2 with
          | none =>
            rw [emitLoop_cons_skip _ _ _ _ _ h02 hc2 hm2]
            exact ih _ hndr hmem2 hc
          | some e21 =>
            rw [emitLoop_cons_emit _ _ _ _ _ _ h02 hc2 hm2]
            refine List.mem_cons_of_mem _ ?_
            exact ih _ hndr hmem2
              (by rw [alContains_alInsert_ne e21 hkk]; exact hc)

/-- A transient entry with TTL 0 forces its key out of `sentEntries` and is
never emitted in this round. -/
theorem emitLoop_goodbye (p : lookupParams) (es : Entries) (st : State)
    (k : String) (e : ServiceEntry) (hnd : (es.map Prod.fst).Nodup)
    (hmem : (k, e) ∈ es) (h0 : e.TTL = 0) :
    alContains (emitLoop p es st).2.sent k = false ∧
      ∀ x, (k, x) ∉ (emitLoop p es st).1 := by
  induction es generalizing st with
  | nil => cases hmem
  | cons kv rest ih =>
    obtain ⟨k2, e2⟩ := kv
    simp only [List.map_cons, List.nodup_cons] at hnd
    obtain ⟨hk2, hndr⟩ := hnd
    rcases List.mem_cons.1 hmem with heq | hmem2
    · injection heq with hkk hee
      subst hkk
      subst hee
      have hkr : k ∉ rest.map Prod.fst := hk2
      rw [emitLoop_cons_ttl0 _ _ _ _ _ h0]
      constructor
      · rw [emitLoop_sent_contains p rest _ k hkr]
        exact alContains_alErase_self st.sent k
      · exact emitLoop_not_mem_of_key p rest _ k hkr
    · have hkk : k ≠ k2 := fun h =>
        hk2 (h ▸ List.mem_map.2 ⟨(k, e), hmem2, rfl⟩)
      by_cases h02 : e2.TTL = 0
      · rw [emitLoop_cons_ttl0 _ _ _ _ _ h02]
        exact ih _ hndr hmem2
      · by_cases hc2 : alContains st.sent k2
        · rw [emitLoop_cons_sent _ _ _ _ _ h02 hc2]
          exact ih _ hndr hmem2
        · simp only [Bool.not_eq_true] at hc2
          cases hm2 : emitOne p e2 with
          | none =>
            rw [emitLoop_cons_skip _ _ _ _ _ h02 hc2 hm2]
            exact ih _ hndr hmem2
          | some e21 =>
            rw [emitLoop_cons_emit _ _ _ _ _ _ h02 hc2 hm2]
            refine ⟨(ih _ hndr hmem2).1, ?_⟩
            intro x hx
            rcases List.mem_cons.1 hx with heq | hx2
            · exact hkk (congrArg Prod.fst heq)
            · exact (ih _ hndr hmem2).2 x hx2

/-- In a key-unique association list, filtering on a present key returns
exactly its unique pair. -/
theorem filter_key_singleton {l : Entries} {k : String} {v : ServiceEntry}
    (hnd : (l.map Prod.fst).Nodup) (hmem : (k, v) ∈ l) :
    l.filter (fun x => x.1 == k) = [(k, v)] := by
  induction l with
  | nil => cases hmem
  | cons kv rest ih =>
    obtain ⟨k2, v2⟩ := kv
    simp only [List.map_cons, List.nodup_cons] at hnd
    obtain ⟨hk2, hndr⟩ := hnd
    rcases List.mem_cons.1 hmem with heq | hm2
    · injection heq with hkk hee
      subst hkk
      subst hee
      have hrest : rest.filter (fun x => x.1 == k) = [] := by
        apply List.filter_eq_nil_iff.2
        intro x hx
        intro hxk
        exact hk2 (List.mem_map.2 ⟨x, hx, (by simpa using hxk)⟩)
      simp [List.filter_cons, hrest]
    · have hne : k2 ≠ k := fun h =>
        hk2 (h ▸ List.mem_map.2 ⟨(k, v), hm2, rfl⟩)
      simp only [List.filter_cons]
      rw [if_neg (by simpa using hne)]
      exact ih hndr hm2

/-! ### Record-kind predicates and field-tracking lemmas -/

/-- Whether a record is an SRV record (the only case of pass 1 that touches
`SrcAddr`). -/
def RR.isSrv : RR → Bool
  | .srv _ _ _ _ => true
  | _ => false

/-- Whether a record is handled by pass 1 of the correlator (PTR, SRV, TXT);
A, AAAA and all other record types are not. -/
def RR.isPass1 : RR → Bool
  | .ptr _ _ _ => true
  | .srv _ _ _ _ => true
  | .txt _ _ _ => true
  | _ => false

theorem alEnsure_forall {P : ServiceEntry → Prop} {l : Entries} {k : String}
    {d : ServiceEntry} (h : ∀ ke ∈ l, P ke.2) (hd : P d) :
    ∀ ke ∈ alEnsure l k d, P ke.2 := by
  unfold alEnsure
  split
  · exact h
  · intro ke hke
    rcases List.mem_append.1 hke with hl | hr
    · exact h ke hl
    · simp only [List.mem_singleton] at hr
      rw [hr]
      exact hd

theorem alSet_forall {P : ServiceEntry → Prop} {l : Entries} {k : String}
    {f : ServiceEntry → ServiceEntry} (h : ∀ ke ∈ l, P ke.2)
    (hf : ∀ e, P e → P (f e)) : ∀ ke ∈ alSet l k f, P ke.2 := by
  intro ke hke
  rcases List.mem_map.1 hke with ⟨kv, hkv, heq⟩
  by_cases hk : kv.1 = k
  · rw [← heq]
    simp only [hk, beq_self_eq_true, if_pos]
    exact hf _ (h kv hkv)
  · rw [← heq]
    rw [if_neg (by simpa using hk)]
    exact h kv hkv

/-- A record that is not SRV never sets `SrcAddr`. -/
theorem pass1Step_srcAddr (p : lookupParams) (src : Option IPBytes)
    (es : Entries) (rr : RR) (hrr : rr.isSrv = false)
    (h : ∀ ke ∈ es, ke.2.SrcAddr = []) :
    ∀ ke ∈ pass1Step p src es rr, ke.2.SrcAddr = [] := by
  cases rr <;> simp only [pass1Step] <;> try exact h
  case ptr name ttl ptrTarget =>
    split
    · exact h
    · split
      · exact h
      · exact @alSet_forall (fun e => e.SrcAddr = []) _ _ _
          (@alEnsure_forall (fun e => e.SrcAddr = []) _ _ _ h rfl) (fun e he => he)
  case srv => exact Bool.noConfusion hrr
  case txt name ttl txtData =>
    split
    · exact h
    · split
      · exact h
      · exact @alSet_forall (fun e => e.SrcAddr = []) _ _ _
          (@alEnsure_forall (fun e => e.SrcAddr = []) _ _ _ h rfl) (fun e he => he)

/-- Pass 2 never touches `SrcAddr`. -/
theorem pass2Step_srcAddr (es : Entries) (rr : RR)
    (h : ∀ ke ∈ es, ke.2.SrcAddr = []) :
    ∀ ke ∈ pass2Step es rr, ke.2.SrcAddr = [] := by
  cases rr <;> simp only [pass2Step] <;> try exact h
  case a name addr =>
    intro ke hke
    rcases List.mem_map.1 hke with ⟨kv, hkv, heq⟩
    rw [← heq]
    split <;> exact h kv hkv
  case aaaa name addr =>
    intro ke hke
    rcases List.mem_map.1 hke with ⟨kv, hkv, heq⟩
    rw [← heq]
    split <;> exact h kv hkv

/-- In a datagram carrying no SRV record, every transient entry has an empty
`SrcAddr`. -/
theorem buildEntries_srcAddr (p : lookupParams) (m : DnsMsg)
    (hm : ∀ rr ∈ m.sections, rr.isSrv = false) :
    ∀ ke ∈ buildEntries p m, ke.2.SrcAddr = [] := by
  unfold buildEntries
  have h1 : ∀ (l : List RR), (∀ rr ∈ l, rr.isSrv = false) → ∀ (es : Entries),
      (∀ ke ∈ es, ke.2.SrcAddr = []) →
      ∀ ke ∈ l.foldl (pass1Step p m.src) es, ke.2.SrcAddr = [] := by
    intro l
    induction l with
    | nil => intro _ es h _ hke; exact h _ hke
    | cons rr rest ih =>
      intro hl es h
      exact ih (fun r hr => hl r (List.mem_cons_of_mem rr hr)) _
        (pass1Step_srcAddr p m.src es rr (hl rr (List.mem_cons_self rr rest)) h)
  have h2 : ∀ (l : List RR) (es : Entries),
      (∀ ke ∈ es, ke.2.SrcAddr = []) →
      ∀ ke ∈ l.foldl pass2Step es, ke.2.SrcAddr = [] := by
    intro l
    induction l with
    | nil => intro es h _ hke; exact h _ hke
    | cons rr rest ih =>
      intro es h
      exact ih _ (pass2Step_srcAddr es rr h)
  exact h2 _ _ (h1 _ hm [] (by simp))

/-- A record not handled by pass 1 leaves the transient entries unchanged. -/
theorem pass1Step_of_not_pass1 (p : lookupParams) (src : Option IPBytes)
    (es : Entries) (rr : RR) (hrr : rr.isPass1 = false) :
    pass1Step p src es rr = es := by
  cases rr <;> first
    | rfl
    | simp [RR.isPass1] at hrr

/-- Pass 2 over the empty map is the empty map. -/
theorem pass2Step_nil (rr : RR) : pass2Step [] rr = [] := by
  cases rr <;> rfl

/-- A datagram containing only records that pass 1 ignores (in particular
pure A/AAAA address records) builds an empty transient map. -/
theorem buildEntries_of_addr_only (p : lookupParams) (m : DnsMsg)
    (hm : ∀ rr ∈ m.sections, rr.isPass1 = false) : buildEntries p m = [] := by
  unfold buildEntries
  have h1 : ∀ (l : List RR), (∀ rr ∈ l, rr.isPass1 = false) →
      l.foldl (pass1Step p m.src) [] = [] := by
    intro l
    induction l with
    | nil => intro _; rfl
    | cons rr rest ih =>
      intro hl
      rw [List.foldl_cons,
        pass1Step_of_not_pass1 p m.src [] rr (hl rr (List.mem_cons_self rr rest))]
      exact ih (fun r hr => hl r (List.mem_cons_of_mem rr hr))
  have h2 : ∀ (l : List RR), l.foldl pass2Step [] = [] := by
    intro l
    induction l with
    | nil => rfl
    | cons rr rest ih => rw [List.foldl_cons, pass2Step_nil]; exact ih
  rw [h1 _ hm, h2]

/-! ### Lifting the per-message invariants to message sequences -/

theorem runMsgs_ttl (p : lookupParams) (st : State) (ms : List DnsMsg) :
    ∀ ke ∈ (runMsgs p st ms).1, ke.2.TTL ≠ 0 := by
  induction ms generalizing st with
  | nil => intro ke h; simp [runMsgs] at h
  | cons m rest ih =>
    intro ke h
    simp only [runMsgs] at h
    rcases List.mem_append.1 h with h1 | h2
    · exact emitLoop_ttl p _ st ke h1
    · exact ih _ ke h2

theorem runMsgs_addr (p : lookupParams) (st : State) (ms : List DnsMsg)
    (hne : p.toServiceRecord.ServiceTypeName ≠ p.toServiceRecord.ServiceName) :
    ∀ ke ∈ (runMsgs p st ms).1, 1 ≤ ke.2.AddrIPv4.length + ke.2.AddrIPv6.length := by
  induction ms generalizing st with
  | nil => intro ke h; simp [runMsgs] at h
  | cons m rest ih =>
    intro ke h
    simp only [runMsgs] at h
    rcases List.mem_append.1 h with h1 | h2
    · exact emitLoop_addr p _ st hne ke h1
    · exact ih _ ke h2

theorem runMsgs_probing_mono (p : lookupParams) (st : State) (ms : List DnsMsg)
    (h : st.probingDisabled = true) :
    (runMsgs p st ms).2.probingDisabled = true := by
  induction ms generalizing st with
  | nil => exact h
  | cons m rest ih =>
    exact ih _ (emitLoop_probing_mono p _ st h)

/-! ### The query builder (`client.query`, reuseport_windows.go lines 592-615) -/

/-- miekg/dns `TypeSRV`. -/
def typeSRV : Nat := 33
/-- miekg/dns `TypeTXT`. -/
def typeTXT : Nat := 16
/-- miekg/dns `TypePTR`. -/
def typePTR : Nat := 12
/-- miekg/dns `ClassINET`. -/
def classINET : Nat := 1

/-- A DNS question. -/
structure Question where
  Name : String
  Qtype : Nat
  Qclass : Nat
  deriving DecidableEq

/-- The pure content of the outgoing `dns.Msg`: the question section and the
recursion-desired header bit. -/
structure DnsQuery where
  Question : List Question
  RecursionDesired : Bool
  deriving DecidableEq

/-- miekg/dns `Msg.SetQuestion`: one question of class IN, and it sets
`RecursionDesired` to true (the caller later clears it again). -/
def setQuestion (m : DnsQuery) (z : String) (t : Nat) : DnsQuery :=
  { m with RecursionDesired := true, Question := [⟨z, t, classINET⟩] }

/-- `client.query`: the question section depends on instance / subtypes /
plain service browse, and `RecursionDesired` is forced to false after the
branch. -/
def clientQuery (p : lookupParams) : DnsQuery :=
  let serviceName := trimDot p.Service ++ "." ++ trimDot p.Domain ++ "."
  let m0 : DnsQuery := { Question := [], RecursionDesired := false }
  let m1 :=
    if p.Instance ≠ "" then
      let serviceInstanceName := p.Instance ++ "." ++ serviceName
      { m0 with Question :=
          [⟨serviceInstanceName, typeSRV, classINET⟩,
           ⟨serviceInstanceName, typeTXT, classINET⟩] }
    else if p.Subtypes ≠ [] then
      setQuestion m0 (p.Subtypes.headD "") typePTR
    else
      setQuestion m0 serviceName typePTR
  { m1 with RecursionDesired := false }

/-! ### The socket factory (connection.go) -/

/-- A UDP address (IP bytes and port). -/
structure UDPAddr where
  IP : IPBytes
  Port : Nat
  deriving DecidableEq

/-- `mdnsGroupIPv4 = net.IPv4(224, 0, 0, 251)` (connection.go line 16). -/
def mdnsGroupIPv4 : IPBytes := [224, 0, 0, 251]

/-- `mdnsGroupIPv6 = net.ParseIP("ff02::fb")` (connection.go line 17). -/
def mdnsGroupIPv6 : IPBytes := [255, 2, 0, 0, 0, 0, 0, 0, 0, 0, 0, 0, 0, 0, 0, 251]

/-- `mdnsWildcardAddrIPv4` (connection.go lines 20-23): the v4 sockets are
bound to `224.0.0.0:5353` in this source, not to `0.0.0.0:5353`. -/
def mdnsWildcardAddrIPv4 : UDPAddr := { IP := [224, 0, 0, 0], Port := 5353 }

/-- `mdnsWildcardAddrIPv6` (connection.go lines 24-27): `[::]:5353`. -/
def mdnsWildcardAddrIPv6 : UDPAddr := { IP := List.replicate 16 0, Port := 5353 }

/-- `ipv4Addr` (connection.go lines 30-33): the v4 multicast destination. -/
def ipv4Addr : UDPAddr := { IP := mdnsGroupIPv4, Port := 5353 }

/-- `ipv6Addr` (connection.go lines 34-37): the v6 multicast destination. -/
def ipv6Addr : UDPAddr := { IP := mdnsGroupIPv6, Port := 5353 }

/-- A network interface, with the flag bits `listMulticastInterfaces`
inspects. -/
structure Iface where
  name : String
  up : Bool
  multicast : Bool
  deriving DecidableEq

/-- `listMulticastInterfaces` (connection.go lines 143-159): keep the
interfaces that are up and multicast-capable. -/
def listMulticastInterfaces (all : List Iface) : List Iface :=
  all.filter (fun i => i.up && i.multicast)

/-- Result of the group-join phase of `joinUdp4Multicast` /
`joinUdp6Multicast` (run after the socket has been opened on the wildcard
bind address): which interfaces were attempted, whether the packet
connection was closed, and the connection if it was kept. -/
structure JoinResult where
  bindAddr : UDPAddr
  attempted : List Iface
  conn : Option Nat
  closed : Bool
  deriving DecidableEq

/-- `joinUdp4Multicast` (connection.go lines 94-141), from the point where
the socket `sock` has been opened bound to `mdnsWildcardAddrIPv4`: join the
v4 group on every interface (defaulting to the up+multicast interfaces of
the host when none are given, with `allIfaces` the host interface list and
`joinOk` the per-interface join outcome); if every join failed, close the
socket and report failure. -/
def joinUdp4Multicast (interfaces allIfaces : List Iface)
    (joinOk : Iface → Bool) (sock : Nat) : JoinResult :=
  let ifs := if interfaces = [] then listMulticastInterfaces allIfaces else interfaces
  let failedJoins := ifs.countP (fun i => !(joinOk i))
  if failedJoins = ifs.length then
    { bindAddr := mdnsWildcardAddrIPv4, attempted := ifs, conn := none, closed := true }
  else
    { bindAddr := mdnsWildcardAddrIPv4, attempted := ifs, conn := some sock, closed := false }

/-- `joinUdp6Multicast` (connection.go lines 45-92), same structure on the
v6 side, bound to `mdnsWildcardAddrIPv6`. -/
def joinUdp6Multicast (interfaces allIfaces : List Iface)
    (joinOk : Iface → Bool) (sock : Nat) : JoinResult :=
  let ifs := if interfaces = [] then listMulticastInterfaces allIfaces else interfaces
  let failedJoins := ifs.countP (fun i => !(joinOk i))
  if failedJoins = ifs.length then
    { bindAddr := mdnsWildcardAddrIPv6, attempted := ifs, conn := none, closed := true }
  else
    { bindAddr := mdnsWildcardAddrIPv6, attempted := ifs, conn := some sock, closed := false }

/-! ### Client construction and teardown (`newClient` / `client.shutdown`) -/

/-- `IPv4` of the `IPType` bitmask. -/
def IPv4 : Nat := 1
/-- `IPv6` of the `IPType` bitmask. -/
def IPv6 : Nat := 2
/-- `IPv4AndIPv6`, the default. -/
def IPv4AndIPv6 : Nat := 3

/-- A connection handle, tagged by who created it: `custom` connections come
from the caller via `WithCustomConn`, `opened` connections were opened by
the engine itself. -/
inductive Conn where
  | custom (id : Nat)
  | opened (id : Nat)
  deriving DecidableEq

/-- `Conn.isOpened c` holds when the engine opened `c` itself. -/
def Conn.isOpened : Conn → Bool
  | .opened _ => true
  | .custom _ => false

/-- `clientOpts` (reuseport_windows.go lines 51-59): `none` models a nil
custom connection/slice. -/
structure clientOpts where
  listenOn : Nat
  ifaces : List Iface
  enableUnicast : Bool
  customIPv4Conn : Option Nat
  customIPv6Conn : Option Nat
  customIPv4Unicast : Option (List Nat)
  customIPv6Unicast : Option (List Nat)
  deriving DecidableEq

/-- The environment `newClient` runs in: the host interfaces, whether the
two multicast join calls succeed (and the resulting socket ids), and the
unicast listeners `createUnicastListeners` would produce (that function
never returns an error, connection.go line 249). -/
structure NewClientEnv where
  allIfaces : List Iface
  join4 : Option Nat
  join6 : Option Nat
  unicast4 : List Nat
  unicast6 : List Nat

/-- The `client` structure (reuseport_windows.go lines 195-206). -/
structure ClientConns where
  ipv4conn : Option Conn
  ipv6conn : Option Conn
  ipv4unicastConn : List Conn
  ipv6unicastConn : List Conn
  ifaces : List Iface
  ipv4connManaged : Bool
  ipv6connManaged : Bool
  ipv4unicastConnManaged : Bool
  ipv6unicastConnManaged : Bool
  deriving DecidableEq

/-- The shared shape of `newClient`'s two multicast-connection blocks
(reuseport_windows.go lines 216-242, identical for v4 and v6): a custom
connection is taken over and marked managed; otherwise, when the family is
selected by the listen mask, the multicast join must succeed (else
construction fails) and the resulting connection is unmanaged. -/
def multicastConnSlot (customConn : Option Nat) (selected : Prop)
    [Decidable selected] (joinResult : Option Nat) : Option (Option Conn × Bool) :=
  match customConn with
  | some c => some (some (Conn.custom c), true)
  | none =>
    if selected then
      match joinResult with
      | some id => some (some (Conn.opened id), false)
      | none => none
    else some (none, false)

/-- The unicast part of `newClient` (reuseport_windows.go lines 244-265):
when either custom unicast slice is non-nil both lists are taken from the
caller and both managed flags are set; otherwise `enableUnicast` opens
engine-owned listeners via `createUnicastListeners` (which never errors),
with both managed flags unset. -/
def unicastConnSetup (opts : clientOpts) (env : NewClientEnv) :
    List Conn × List Conn × Bool × Bool :=
  if opts.customIPv4Unicast ≠ none ∨ opts.customIPv6Unicast ≠ none then
    ((opts.customIPv4Unicast.getD []).map Conn.custom,
     (opts.customIPv6Unicast.getD []).map Conn.custom, true, true)
  else if opts.enableUnicast then
    (env.unicast4.map Conn.opened, env.unicast6.map Conn.opened, false, false)
  else ([], [], false, false)

/-- `newClient` (reuseport_windows.go lines 209-278): a custom connection is
used as-is and marked managed; otherwise, when the family is selected, the
engine joins the multicast group itself (failure aborts construction) and
the connection is marked unmanaged; custom unicast slices mark both unicast
flags managed, else `enableUnicast` opens engine-owned listeners. -/
def newClient (opts : clientOpts) (env : NewClientEnv) : Option ClientConns :=
  let ifaces := if opts.ifaces = [] then listMulticastInterfaces env.allIfaces
                else opts.ifaces
  match multicastConnSlot opts.customIPv4Conn (opts.listenOn &&& IPv4 > 0) env.join4 with
  | none => none
  | some (ipv4conn, m4) =>
    match multicastConnSlot opts.customIPv6Conn (opts.listenOn &&& IPv6 > 0) env.join6 with
    | none => none
    | some (ipv6conn, m6) =>
      some
        { ipv4conn := ipv4conn, ipv6conn := ipv6conn,
          ipv4unicastConn := (unicastConnSetup opts env).1,
          ipv6unicastConn := (unicastConnSetup opts env).2.1,
          ifaces := ifaces,
          ipv4connManaged := m4, ipv6connManaged := m6,
          ipv4unicastConnManaged := (unicastConnSetup opts env).2.2.1,
          ipv6unicastConnManaged := (unicastConnSetup opts env).2.2.2 }

/-- All connections the client references. -/
def clientAllConns (c : ClientConns) : List Conn :=
  c.ipv4conn.toList ++ c.ipv6conn.toList ++ c.ipv4unicastConn ++ c.ipv6unicastConn

/-- `client.shutdown` (reuseport_windows.go lines 426-449): the connections
that get closed — each multicast connection if present and not managed
externally, and each unicast list when its managed flag is unset. -/
def shutdownClosed (c : ClientConns) : List Conn :=
  (match c.ipv4conn with
   | some conn => if !c.ipv4connManaged then [conn] else []
   | none => []) ++
  (match c.ipv6conn with
   | some conn => if !c.ipv6connManaged then [conn] else []
   | none => []) ++
  (if !c.ipv4unicastConnManaged then c.ipv4unicastConn else []) ++
  (if !c.ipv6unicastConnManaged then c.ipv6unicastConn else [])

/-! ### The send path (`client.sendQuery`, reuseport_windows.go lines 618-658) -/

/-- One `WriteTo` call performed by `sendQuery`: the address family, the
interface of this loop iteration, the multicast destination, and the
(ignored) write outcome. -/
structure WriteRec where
  family : Nat
  iface : Iface
  dest : UDPAddr
  writeOk : Bool
  deriving DecidableEq

/-- The environment of one `sendQuery` call: the packed message
(`none` = `msg.Pack()` failed), and the per-interface outcomes of
`SetMulticastInterface` and `WriteTo` for each family. -/
structure SendEnv where
  packed : Option (List Nat)
  setMifOk4 : Iface → Bool
  setMifOk6 : Iface → Bool
  writeOk4 : Iface → Bool
  writeOk6 : Iface → Bool

/-- The per-family interface loop of `sendQuery`: on darwin/ios/linux the
control message carries the interface index; on every other platform
`SetMulticastInterface` is called first and a failure is merely logged.
The `WriteTo` result is discarded by the source, so the loop always visits
every interface. -/
def sendLoop (family : Nat) (dest : UDPAddr) (goos : String)
    (setMifOk writeOk : Iface → Bool) (ifaces : List Iface) :
    List WriteRec × List String :=
  ifaces.foldl
    (fun acc i =>
      let warns :=
        if goos = "darwin" ∨ goos = "ios" ∨ goos = "linux" then acc.2
        else if setMifOk i then acc.2
        else acc.2 ++ ["failed to set multicast interface " ++ i.name]
      (acc.1 ++ [{ family := family, iface := i, dest := dest, writeOk := writeOk i }],
        warns))
    ([], [])

/-- `client.sendQuery`: pack the message (an error here is returned to the
caller), then write it on the v4 and v6 connections, iterating over every
interface; returns the writes performed and the warnings logged. -/
def sendQuery (hasV4 hasV6 : Bool) (ifaces : List Iface) (goos : String)
    (env : SendEnv) : Option (List WriteRec × List String) :=
  match env.packed with
  | none => none
  | some _ =>
    let r4 := if hasV4 then sendLoop 4 ipv4Addr goos env.setMifOk4 env.writeOk4 ifaces
              else ([], [])
    let r6 := if hasV6 then sendLoop 6 ipv6Addr goos env.setMifOk6 env.writeOk6 ifaces
              else ([], [])
    some (r4.1 ++ r6.1, r4.2 ++ r6.2)

/-! ### Concrete scenario fixtures -/

/-- A browse session for `_x._tcp` in `local`. -/
def sampleBrowseParams : lookupParams := browseSessionParams "_x._tcp" "local" []

/-- A lookup session targeting instance `A` of `_x._tcp` in `local`. -/
def sampleLookupParams : lookupParams := lookupSessionParams "A" "_x._tcp" "local"

/-- A complete response for instance `A`: SRV plus A record, TTL 120. -/
def sampleResponse : DnsMsg :=
  { answer := [.srv "A._x._tcp.local." 120 "h.local." 9, .a "h.local." [1, 2, 3, 4]],
    ns := [], extra := [], src := some [9, 9, 9, 9] }

/-- The transient entry `sampleResponse` produces. -/
def sampleEntry : ServiceEntry :=
  { Instance := "A", Service := "_x._tcp", Domain := "local", HostName := "h.local.",
    Port := 9, Text := [], TTL := 120, AddrIPv4 := [[1, 2, 3, 4]], AddrIPv6 := [],
    SrcAddr := [9, 9, 9, 9] }

/-- A goodbye (TTL 0) for the same instance. -/
def sampleGoodbye : DnsMsg :=
  { answer := [.srv "A._x._tcp.local." 0 "h.local." 9], ns := [], extra := [],
    src := none }

/-- The transient entry `sampleGoodbye` produces. -/
def sampleGoodbyeEntry : ServiceEntry :=
  { Instance := "A", Service := "_x._tcp", Domain := "local", HostName := "h.local.",
    Port := 9, Text := [], TTL := 0, AddrIPv4 := [], AddrIPv6 := [], SrcAddr := [] }

/-- A datagram carrying only a fresh A record for the instance's hostname. -/
def sampleAddrOnly : DnsMsg :=
  { answer := [.a "h.local." [5, 6, 7, 8]], ns := [], extra := [], src := none }

/-- An SRV-only response whose datagram arrived from an IPv6 source. -/
def sampleV6SrcResponse : DnsMsg :=
  { answer := [.srv "A._x._tcp.local." 120 "h.local." 9], ns := [], extra := [],
    src := some [254, 128, 0, 0, 0, 0, 0, 0, 0, 0, 0, 0, 0, 0, 0, 1] }

/-- The transient entry `sampleV6SrcResponse` produces: no A/AAAA arrived,
only the 16-byte IPv6 source address is known. -/
def sampleV6SrcEntry : ServiceEntry :=
  { Instance := "A", Service := "_x._tcp", Domain := "local", HostName := "h.local.",
    Port := 9, Text := [], TTL := 120, AddrIPv4 := [], AddrIPv6 := [],
    SrcAddr := [254, 128, 0, 0, 0, 0, 0, 0, 0, 0, 0, 0, 0, 0, 0, 1] }

/-! ### Claim theorems -/

/-- C1: for every ServiceEntry emitted on the output stream by the correlator
loop, the entry's TTL field is strictly greater than zero at the moment of
emission, for every sequence of incoming DNS messages. -/
theorem mainloop_emitted_ttl_pos (p : lookupParams) (st : State)
    (ms : List DnsMsg) (ke : String × ServiceEntry)
    (h : ke ∈ (runMsgs p st ms).1) : 0 < ke.2.TTL :=
  Nat.pos_of_ne_zero (runMsgs_ttl p st ms ke h)

/-- Witness for C1: the complete sample response produces an emission, whose
TTL is positive. -/
theorem mainloop_emitted_ttl_pos_witness :
    ("A._x._tcp.local.", sampleEntry) ∈
        (runMsgs sampleBrowseParams initialState [sampleResponse]).1 ∧
      0 < sampleEntry.TTL :=
  ⟨by decide,
   mainloop_emitted_ttl_pos sampleBrowseParams initialState [sampleResponse]
     ("A._x._tcp.local.", sampleEntry) (by decide)⟩

/-- C2: when ServiceTypeName differs from ServiceName, every emitted entry
has a non-empty address union; an entry with both address lists empty but a
non-empty SrcAddr gets SrcAddr appended to AddrIPv4 before emission; an
entry with empty address lists and empty SrcAddr is not emitted. -/
theorem mainloop_addr_sufficiency (p : lookupParams) (st : State)
    (ms : List DnsMsg) (ke : String × ServiceEntry)
    (hne : p.toServiceRecord.ServiceTypeName ≠ p.toServiceRecord.ServiceName)
    (hmem : ke ∈ (runMsgs p st ms).1) :
    1 ≤ ke.2.AddrIPv4.length + ke.2.AddrIPv6.length ∧
    (∀ e : ServiceEntry, e.AddrIPv4 = [] → e.AddrIPv6 = [] → e.SrcAddr ≠ [] →
      emitOne p e = some { e with AddrIPv4 := e.AddrIPv4 ++ [e.SrcAddr] }) ∧
    (∀ e : ServiceEntry, e.AddrIPv4 = [] → e.AddrIPv6 = [] → e.SrcAddr = [] →
      emitOne p e = none) := by
  refine ⟨runMsgs_addr p st ms hne ke hmem, ?_, ?_⟩
  · intro e h4 h6 hs
    unfold emitOne
    rw [if_pos hne, if_pos ⟨h4, h6⟩, if_neg hs]
  · intro e h4 h6 hs
    unfold emitOne
    rw [if_pos hne, if_pos ⟨h4, h6⟩, if_pos hs]

/-- Witness for C2: the sample session is not a service-type enumeration,
the sample response is emitted, and its address union is non-empty. -/
theorem mainloop_addr_sufficiency_witness :
    sampleBrowseParams.toServiceRecord.ServiceTypeName ≠
        sampleBrowseParams.toServiceRecord.ServiceName ∧
      ("A._x._tcp.local.", sampleEntry) ∈
        (runMsgs sampleBrowseParams initialState [sampleResponse]).1 ∧
      1 ≤ sampleEntry.AddrIPv4.length + sampleEntry.AddrIPv6.length :=
  ⟨by decide, by decide,
   (mainloop_addr_sufficiency sampleBrowseParams initialState [sampleResponse]
      ("A._x._tcp.local.", sampleEntry) (by decide) (by decide)).1⟩

/-- C3: within one session, processing the same complete response twice
produces exactly one emission for that instance FQDN; a TTL-0 response for
an already-sent instance removes it from `sentEntries` without emitting, and
a later non-zero-TTL response for the same instance is emitted once more. -/
theorem mainloop_replay_goodbye (p : lookupParams) (st : State) (m g : DnsMsg)
    (k : String) (e eg e1 : ServiceEntry)
    (hm : (k, e) ∈ buildEntries p m) (h0 : e.TTL ≠ 0)
    (hone : emitOne p e = some e1) (hsent : alContains st.sent k = false)
    (hg : (k, eg) ∈ buildEntries p g) (hg0 : eg.TTL = 0) :
    ((processMsg p st m).1.filter (fun x => x.1 == k) = [(k, e1)]) ∧
    (processMsg p (processMsg p st m).2 m = ([], (processMsg p st m).2)) ∧
    (alContains (processMsg p (processMsg p st m).2 g).2.sent k = false ∧
      ∀ x, (k, x) ∉ (processMsg p (processMsg p st m).2 g).1) ∧
    ((k, e1) ∈ (processMsg p (processMsg p (processMsg p st m).2 g).2 m).1) := by
  have hnd := buildEntries_keys_nodup p m
  have hndg := buildEntries_keys_nodup p g
  have hmem1 : (k, e1) ∈ (processMsg p st m).1 :=
    emitLoop_mem_emit p _ st k e e1 hnd hm h0 hsent hone
  have hgood := emitLoop_goodbye p (buildEntries p g) (processMsg p st m).2 k eg
    hndg hg hg0
  refine ⟨?_, processMsg_idem p st m, hgood, ?_⟩
  · exact filter_key_singleton
      ((emitLoop_keys_sublist p (buildEntries p m) st).nodup hnd) hmem1
  · exact emitLoop_mem_emit p _ _ k e e1 hnd hm h0 hgood.1 hone

/-- Witness for C3: replaying the sample response emits nothing the second
time, and after the goodbye the same response is emitted once more. -/
theorem mainloop_replay_goodbye_witness :
    (processMsg sampleBrowseParams
        (processMsg sampleBrowseParams initialState sampleResponse).2 sampleResponse
      = ([], (processMsg sampleBrowseParams initialState sampleResponse).2)) ∧
    (("A._x._tcp.local.", sampleEntry) ∈
      (processMsg sampleBrowseParams
        (processMsg sampleBrowseParams
          (processMsg sampleBrowseParams initialState sampleResponse).2
          sampleGoodbye).2 sampleResponse).1) := by
  have h := mainloop_replay_goodbye sampleBrowseParams initialState sampleResponse
    sampleGoodbye "A._x._tcp.local." sampleEntry sampleGoodbyeEntry sampleEntry
    (by decide) (by decide) (by decide) (by decide) (by decide) (by decide)
  exact ⟨h.2.1, h.2.2.2⟩

/-- C4: the query builder produces, for every LookupParams: with a non-empty
instance, exactly the two questions {instanceFQDN, SRV, IN} and
{instanceFQDN, TXT, IN}; else with non-empty subtypes, exactly one question
{subtypes[0], PTR, IN}; else exactly one question {serviceName, PTR, IN};
and in every case RecursionDesired is false. -/
theorem query_questions_spec (p : lookupParams) :
    (clientQuery p).RecursionDesired = false ∧
    (clientQuery p).Question =
      (if p.Instance ≠ "" then
        [⟨p.Instance ++ "." ++ (trimDot p.Service ++ "." ++ trimDot p.Domain ++ "."),
            typeSRV, classINET⟩,
         ⟨p.Instance ++ "." ++ (trimDot p.Service ++ "." ++ trimDot p.Domain ++ "."),
            typeTXT, classINET⟩]
      else if p.Subtypes ≠ [] then
        [⟨p.Subtypes.headD "", typePTR, classINET⟩]
      else
        [⟨trimDot p.Service ++ "." ++ trimDot p.Domain ++ ".", typePTR, classINET⟩]) := by
  refine ⟨rfl, ?_⟩
  by_cases h1 : p.Instance ≠ ""
  · simp only [clientQuery, setQuestion, if_pos h1]
  · by_cases h2 : p.Subtypes ≠ []
    · simp only [clientQuery, setQuestion, if_neg h1, if_pos h2]
    · simp only [clientQuery, setQuestion, if_neg h1, if_neg h2]

/-- C5 counterexample: the claim states the IPv4 multicast socket is bound
to the wildcard address 0.0.0.0:5353, but in this source the v4 bind address
(`mdnsWildcardAddrIPv4`, used by `joinUdp4Multicast`) is 224.0.0.0:5353. -/
theorem wildcard_bind_claim_false :
    ¬ ((joinUdp4Multicast [] [] (fun _ => false) 0).bindAddr =
          { IP := [0, 0, 0, 0], Port := 5353 } ∧
       (joinUdp6Multicast [] [] (fun _ => false) 0).bindAddr =
          { IP := List.replicate 16 0, Port := 5353 }) := by
  decide

/-- C5 amended: the IPv4 multicast socket is opened bound to 224.0.0.0 on
port 5353 (the source's `mdnsWildcardAddrIPv4`), and the IPv6 socket to
`[::]:5353`. -/
theorem bind_addrs_amended (interfaces allIfaces : List Iface)
    (joinOk : Iface → Bool) (sock : Nat) :
    (joinUdp4Multicast interfaces allIfaces joinOk sock).bindAddr =
        { IP := [224, 0, 0, 0], Port := 5353 } ∧
    (joinUdp6Multicast interfaces allIfaces joinOk sock).bindAddr =
        { IP := List.replicate 16 0, Port := 5353 } := by
  unfold joinUdp4Multicast joinUdp6Multicast
  constructor <;> split <;> dsimp only <;> split <;> rfl

/-- C6 counterexample: in a one-shot Lookup session, after the first
matching emission (for the complete sample response) a later datagram that
carries a fresh A record for that instance's hostname produces no delivery
at all — subsequent address records are not delivered to the consumer. -/
theorem lookup_later_addr_records_dropped :
    (processMsg sampleLookupParams initialState sampleResponse).1 ≠ [] ∧
    (processMsg sampleLookupParams
        (processMsg sampleLookupParams initialState sampleResponse).2
        sampleAddrOnly).1 = [] := by
  decide

/-- C6 amended: in a one-shot Lookup session, after the first matching
emission periodic probing is halted (the probe-stop signal fires and stays
fired through any further processing), and the session continues processing
subsequent messages; however, a subsequent datagram carrying only address
records yields no delivery (address records alone never create an entry,
and re-announcements are deduplicated by `sentEntries`). -/
theorem lookup_halts_probing_amended (inst svc dom : String) (st : State)
    (m : DnsMsg) (ms : List DnsMsg)
    (hemit : (processMsg (lookupSessionParams inst svc dom) st m).1 ≠ []) :
    ((processMsg (lookupSessionParams inst svc dom) st m).2.probingDisabled = true) ∧
    ((runMsgs (lookupSessionParams inst svc dom)
        (processMsg (lookupSessionParams inst svc dom) st m).2 ms).2.probingDisabled
      = true) ∧
    (∀ m2 : DnsMsg, (∀ rr ∈ m2.sections, rr.isPass1 = false) →
      (processMsg (lookupSessionParams inst svc dom)
        (processMsg (lookupSessionParams inst svc dom) st m).2 m2).1 = []) := by
  have hb : (lookupSessionParams inst svc dom).isBrowsing = false := by
    unfold lookupSessionParams defaultParams newLookupParams
    split <;> rfl
  refine ⟨emitLoop_probing_of_emit _ _ _ hb hemit,
    runMsgs_probing_mono _ _ _ (emitLoop_probing_of_emit _ _ _ hb hemit), ?_⟩
  intro m2 hm2
  unfold processMsg
  rw [buildEntries_of_addr_only _ _ hm2]
  rfl

/-- Witness for the amended C6: the sample lookup session emits on the
complete response and the probe-stop signal is fired. -/
theorem lookup_halts_probing_amended_witness :
    (processMsg sampleLookupParams initialState sampleResponse).1 ≠ [] ∧
      (processMsg sampleLookupParams initialState sampleResponse).2.probingDisabled
        = true :=
  ⟨by decide,
   (lookup_halts_probing_amended "A" "_x._tcp" "local" initialState sampleResponse []
      (by decide)).1⟩

/-! ### Ownership and teardown (C7) -/

/-- Every connection a multicast slot yields is engine-opened exactly when
the slot's managed flag is unset. -/
theorem multicastConnSlot_inv {customConn : Option Nat} {selected : Prop}
    [Decidable selected] {joinResult : Option Nat} {oc : Option Conn} {m : Bool}
    (h : multicastConnSlot customConn selected joinResult = some (oc, m)) :
    ∀ c ∈ oc.toList, c.isOpened = !m := by
  cases customConn with
  | some c =>
    simp only [multicastConnSlot, Option.some.injEq, Prod.mk.injEq] at h
    obtain ⟨h1, h2⟩ := h
    subst h1
    subst h2
    intro c1 hc
    simp only [Option.toList_some, List.mem_singleton] at hc
    subst hc
    rfl
  | none =>
    simp only [multicastConnSlot] at h
    split at h
    · cases joinResult with
      | some id =>
        simp only [Option.some.injEq, Prod.mk.injEq] at h
        obtain ⟨h1, h2⟩ := h
        subst h1
        subst h2
        intro c1 hc
        simp only [Option.toList_some, List.mem_singleton] at hc
        subst hc
        rfl
      | none => exact absurd h (by simp)
    · simp only [Option.some.injEq, Prod.mk.injEq] at h
      obtain ⟨h1, h2⟩ := h
      subst h1
      subst h2
      intro c1 hc
      simp at hc

/-- Shutdown behaviour follows from the per-slot ownership invariants: no
caller-supplied connection is ever closed, and every engine-opened
connection is closed. -/
theorem shutdown_spec (cl : ClientConns)
    (h4 : ∀ c ∈ cl.ipv4conn.toList, c.isOpened = !cl.ipv4connManaged)
    (h6 : ∀ c ∈ cl.ipv6conn.toList, c.isOpened = !cl.ipv6connManaged)
    (hu4 : ∀ c ∈ cl.ipv4unicastConn, c.isOpened = !cl.ipv4unicastConnManaged)
    (hu6 : ∀ c ∈ cl.ipv6unicastConn, c.isOpened = !cl.ipv6unicastConnManaged) :
    (∀ n, Conn.custom n ∉ shutdownClosed cl) ∧
    (∀ c ∈ clientAllConns cl, c.isOpened = true → c ∈ shutdownClosed cl) := by
  constructor
  · intro n hmem
    unfold shutdownClosed at hmem
    rcases List.mem_append.1 hmem with hmem | hm6u
    rcases List.mem_append.1 hmem with hmem | hm4u
    rcases List.mem_append.1 hmem with hm4 | hm6
    · revert hm4
      split
      · rename_i conn heq
        split
        · rename_i hmf
          intro hm4
          simp only [List.mem_singleton] at hm4
          subst hm4
          have := h4 (Conn.custom n) (by rw [heq]; simp)
          simp [Conn.isOpened] at this
          simp [this] at hmf
        · intro hm4; simp at hm4
      · intro hm4; simp at hm4
    · revert hm6
      split
      · rename_i conn heq
        split
        · rename_i hmf
          intro hm6
          simp only [List.mem_singleton] at hm6
          subst hm6
          have := h6 (Conn.custom n) (by rw [heq]; simp)
          simp [Conn.isOpened] at this
          simp [this] at hmf
        · intro hm6; simp at hm6
      · intro hm6; simp at hm6
    · revert hm4u
      split
      · rename_i hmf
        intro hm4u
        have := hu4 (Conn.custom n) hm4u
        simp [Conn.isOpened] at this
        simp [this] at hmf
      · intro hm4u; simp at hm4u
    · revert hm6u
      split
      · rename_i hmf
        intro hm6u
        have := hu6 (Conn.custom n) hm6u
        simp [Conn.isOpened] at this
        simp [this] at hmf
      · intro hm6u; simp at hm6u
  · intro c hc hop
    unfold clientAllConns at hc
    unfold shutdownClosed
    rcases List.mem_append.1 hc with hc2 | hc6u
    rcases List.mem_append.1 hc2 with hc3 | hc4u
    rcases List.mem_append.1 hc3 with hc4 | hc6
    · have hman := h4 c hc4
      rw [hop] at hman
      refine List.mem_append_left _ (List.mem_append_left _ (List.mem_append_left _ ?_))
      rcases hcase : cl.ipv4conn with _ | conn
      · rw [hcase] at hc4; simp at hc4
      · rw [hcase] at hc4
        simp only [Option.toList_some, List.mem_singleton] at hc4
        subst hc4
        simp [← hman]
    · have hman := h6 c hc6
      rw [hop] at hman
      refine List.mem_append_left _ (List.mem_append_left _ (List.mem_append_right _ ?_))
      rcases hcase : cl.ipv6conn with _ | conn
      · rw [hcase] at hc6; simp at hc6
      · rw [hcase] at hc6
        simp only [Option.toList_some, List.mem_singleton] at hc6
        subst hc6
        simp [← hman]
    · have hman := hu4 c hc4u
      rw [hop] at hman
      refine List.mem_append_left _ (List.mem_append_right _ ?_)
      simp [← hman, hc4u]
    · have hman := hu6 c hc6u
      rw [hop] at hman
      refine List.mem_append_right _ ?_
      simp [← hman, hc6u]

/-- Both unicast lists of `unicastConnSetup` satisfy the ownership
invariant against their managed flags. -/
theorem unicastConnSetup_inv (opts : clientOpts) (env : NewClientEnv) :
    (∀ c ∈ (unicastConnSetup opts env).1,
        c.isOpened = !(unicastConnSetup opts env).2.2.1) ∧
    (∀ c ∈ (unicastConnSetup opts env).2.1,
        c.isOpened = !(unicastConnSetup opts env).2.2.2) := by
  unfold unicastConnSetup
  split
  · constructor <;>
      (intro c hc
       rcases List.mem_map.1 hc with ⟨x, _, rfl⟩
       rfl)
  · split
    · constructor <;>
        (intro c hc
         rcases List.mem_map.1 hc with ⟨x, _, rfl⟩
         rfl)
    · constructor <;>
        (intro c hc
         simp at hc)

/-- C7: on session teardown, every connection the engine opened itself
(managed flag false) is closed, and every connection supplied by the caller
via WithCustomConn (managed flag true) is left open — caller-supplied
sockets are never closed by the engine, for every client `newClient`
constructs. -/
theorem shutdown_managed_conns (opts : clientOpts) (env : NewClientEnv)
    (cl : ClientConns) (h : newClient opts env = some cl) :
    (∀ n, Conn.custom n ∉ shutdownClosed cl) ∧
    (∀ c ∈ clientAllConns cl, c.isOpened = true → c ∈ shutdownClosed cl) := by
  simp only [newClient] at h
  split at h
  · exact absurd h (by simp)
  · rename_i ipv4conn m4 heq4
    split at h
    · exact absurd h (by simp)
    · rename_i ipv6conn m6 heq6
      injection h with h
      subst h
      exact shutdown_spec _ (multicastConnSlot_inv heq4)
        (multicastConnSlot_inv heq6)
        (unicastConnSetup_inv opts env).1 (unicastConnSetup_inv opts env).2

/-- Sample interfaces for the concrete scenarios. -/
def sampleIface1 : Iface := { name := "eth0", up := true, multicast := true }

/-- A second sample interface. -/
def sampleIface2 : Iface := { name := "eth1", up := true, multicast := true }

/-- Client options with a caller-supplied v4 connection and everything else
engine-managed. -/
def sampleOpts : clientOpts :=
  { listenOn := IPv4AndIPv6, ifaces := [], enableUnicast := false,
    customIPv4Conn := some 7, customIPv6Conn := none,
    customIPv4Unicast := none, customIPv6Unicast := none }

/-- Environment in which both multicast joins succeed. -/
def sampleEnv : NewClientEnv :=
  { allIfaces := [sampleIface1], join4 := some 1, join6 := some 2,
    unicast4 := [], unicast6 := [] }

/-- The client `newClient sampleOpts sampleEnv` constructs. -/
def sampleClient : ClientConns :=
  { ipv4conn := some (Conn.custom 7), ipv6conn := some (Conn.opened 2),
    ipv4unicastConn := [], ipv6unicastConn := [], ifaces := [sampleIface1],
    ipv4connManaged := true, ipv6connManaged := false,
    ipv4unicastConnManaged := false, ipv6unicastConnManaged := false }

/-- Witness for C7: in the sample construction the caller's v4 connection is
not closed on shutdown, while the engine-opened v6 connection is. -/
theorem shutdown_managed_conns_witness :
    newClient sampleOpts sampleEnv = some sampleClient ∧
      Conn.custom 7 ∉ shutdownClosed sampleClient ∧
      Conn.opened 2 ∈ shutdownClosed sampleClient :=
  ⟨by decide,
   (shutdown_managed_conns sampleOpts sampleEnv sampleClient (by decide)).1 7,
   (shutdown_managed_conns sampleOpts sampleEnv sampleClient (by decide)).2
      (Conn.opened 2) (by decide) rfl⟩

/-! ### Multicast join (C8) -/

/-- All joins failed exactly when no join succeeded. -/
theorem joinFail_iff (ifs : List Iface) (f : Iface → Bool) :
    ifs.countP (fun i => !(f i)) = ifs.length ↔ ¬ ∃ i ∈ ifs, f i = true := by
  rw [List.countP_eq_length]
  constructor
  · rintro h ⟨i, hi, hf⟩
    have h2 := h i hi
    rw [hf] at h2
    simp at h2
  · intro h i hi
    cases hf : f i with
    | true => exact absurd ⟨i, hi, hf⟩ h
    | false => simp [hf]

/-- C8: for each IP family, joining the multicast group is attempted on
every given interface (or every up+multicast interface when none given);
the factory returns an error and closes the socket exactly when every join
failed (equivalently, when no join succeeded — including the zero-interface
case), and returns the open socket exactly when at least one join
succeeded. -/
theorem join_multicast_spec (interfaces allIfaces : List Iface)
    (joinOk4 joinOk6 : Iface → Bool) (s4 s6 : Nat) :
    ((joinUdp4Multicast interfaces allIfaces joinOk4 s4).attempted =
        (if interfaces = [] then listMulticastInterfaces allIfaces else interfaces)) ∧
    (((joinUdp4Multicast interfaces allIfaces joinOk4 s4).conn = none ∧
        (joinUdp4Multicast interfaces allIfaces joinOk4 s4).closed = true) ↔
      ¬ ∃ i ∈ (if interfaces = [] then listMulticastInterfaces allIfaces
               else interfaces), joinOk4 i = true) ∧
    (((joinUdp4Multicast interfaces allIfaces joinOk4 s4).conn = some s4 ∧
        (joinUdp4Multicast interfaces allIfaces joinOk4 s4).closed = false) ↔
      ∃ i ∈ (if interfaces = [] then listMulticastInterfaces allIfaces
             else interfaces), joinOk4 i = true) ∧
    ((joinUdp6Multicast interfaces allIfaces joinOk6 s6).attempted =
        (if interfaces = [] then listMulticastInterfaces allIfaces else interfaces)) ∧
    (((joinUdp6Multicast interfaces allIfaces joinOk6 s6).conn = none ∧
        (joinUdp6Multicast interfaces allIfaces joinOk6 s6).closed = true) ↔
      ¬ ∃ i ∈ (if interfaces = [] then listMulticastInterfaces allIfaces
               else interfaces), joinOk6 i = true) ∧
    (((joinUdp6Multicast interfaces allIfaces joinOk6 s6).conn = some s6 ∧
        (joinUdp6Multicast interfaces allIfaces joinOk6 s6).closed = false) ↔
      ∃ i ∈ (if interfaces = [] then listMulticastInterfaces allIfaces
             else interfaces), joinOk6 i = true) := by
  have key : ∀ (ba : UDPAddr) (g : Iface → Bool) (s : Nat) (ifs : List Iface),
      ((if ifs.countP (fun i => !(g i)) = ifs.length
        then ({ bindAddr := ba, attempted := ifs, conn := none, closed := true } : JoinResult)
        else { bindAddr := ba, attempted := ifs, conn := some s, closed := false }).attempted
          = ifs) ∧
      (((if ifs.countP (fun i => !(g i)) = ifs.length
         then ({ bindAddr := ba, attempted := ifs, conn := none, closed := true } : JoinResult)
         else { bindAddr := ba, attempted := ifs, conn := some s, closed := false }).conn = none ∧
        (if ifs.countP (fun i => !(g i)) = ifs.length
         then ({ bindAddr := ba, attempted := ifs, conn := none, closed := true } : JoinResult)
         else { bindAddr := ba, attempted := ifs, conn := some s, closed := false }).closed = true) ↔
        ¬ ∃ i ∈ ifs, g i = true) ∧
      (((if ifs.countP (fun i => !(g i)) = ifs.length
         then ({ bindAddr := ba, attempted := ifs, conn := none, closed := true } : JoinResult)
         else { bindAddr := ba, attempted := ifs, conn := some s, closed := false }).conn = some s ∧
        (if ifs.countP (fun i => !(g i)) = ifs.length
         then ({ bindAddr := ba, attempted := ifs, conn := none, closed := true } : JoinResult)
         else { bindAddr := ba, attempted := ifs, conn := some s, closed := false }).closed = false) ↔
        ∃ i ∈ ifs, g i = true) := by
    intro ba g s ifs
    by_cases hc : ifs.countP (fun i => !(g i)) = ifs.length
    · rw [if_pos hc]
      have hno := (joinFail_iff ifs g).1 hc
      refine ⟨rfl, ?_, ?_⟩
      · simp [hno]
      · simp [hno]
    · rw [if_neg hc]
      have hyes : ∃ i ∈ ifs, g i = true := by
        by_contra hno
        exact hc ((joinFail_iff ifs g).2 hno)
      refine ⟨rfl, ?_, ?_⟩
      · simp [hyes]
      · simp [hyes]
  have h4 := key mdnsWildcardAddrIPv4 joinOk4 s4
    (if interfaces = [] then listMulticastInterfaces allIfaces else interfaces)
  have h6 := key mdnsWildcardAddrIPv6 joinOk6 s6
    (if interfaces = [] then listMulticastInterfaces allIfaces else interfaces)
  exact ⟨h4.1, h4.2.1, h4.2.2, h6.1, h6.2.1, h6.2.2⟩

/-! ### The send path (C9) -/

/-- The first component of the `sendLoop` fold accumulates one write record
per interface, independently of the warning branch. -/
theorem sendLoop_writes (family : Nat) (dest : UDPAddr) (goos : String)
    (setMifOk writeOk : Iface → Bool) (ifaces : List Iface) :
    (sendLoop family dest goos setMifOk writeOk ifaces).1 =
      ifaces.map (fun i =>
        { family := family, iface := i, dest := dest, writeOk := writeOk i }) := by
  unfold sendLoop
  have key : ∀ (l : List Iface) (acc : List WriteRec × List String),
      (l.foldl
        (fun acc i =>
          let warns :=
            if goos = "darwin" ∨ goos = "ios" ∨ goos = "linux" then acc.2
            else if setMifOk i then acc.2
            else acc.2 ++ ["failed to set multicast interface " ++ i.name]
          (acc.1 ++ [{ family := family, iface := i, dest := dest,
                       writeOk := writeOk i }], warns))
        acc).1 =
      acc.1 ++ l.map (fun i =>
        { family := family, iface := i, dest := dest, writeOk := writeOk i }) := by
    intro l
    induction l with
    | nil => intro acc; simp
    | cons i rest ih =>
      intro acc
      rw [List.foldl_cons, ih]
      simp
  simpa using key ifaces ([], [])

/-- C9: `sendQuery` returns an error exactly when packing the message fails;
per-interface `SetMulticastInterface` and `WriteTo` failures never abort the
call, and every interface of each present family is still written to. -/
theorem sendquery_pack_error_only (hasV4 hasV6 : Bool) (ifaces : List Iface)
    (goos : String) (env : SendEnv) :
    ((sendQuery hasV4 hasV6 ifaces goos env = none) ↔ env.packed = none) ∧
    (∀ r, sendQuery hasV4 hasV6 ifaces goos env = some r →
      r.1.map (fun w => (w.family, w.iface)) =
        (if hasV4 then ifaces.map (fun i => ((4 : Nat), i)) else []) ++
        (if hasV6 then ifaces.map (fun i => ((6 : Nat), i)) else [])) := by
  cases hp : env.packed with
  | none =>
    constructor
    · simp [sendQuery, hp]
    · intro r hr
      simp [sendQuery, hp] at hr
  | some buf =>
    constructor
    · simp [sendQuery, hp]
    · intro r hr
      simp only [sendQuery, hp] at hr
      injection hr with hr
      subst hr
      rw [List.map_append]
      cases hasV4 <;> cases hasV6 <;>
        (simp [sendLoop_writes, List.map_map, Function.comp]; try rfl)

/-- An environment in which packing succeeds but `SetMulticastInterface` and
`WriteTo` fail on the first interface. -/
def sampleSendEnv : SendEnv :=
  { packed := some [0],
    setMifOk4 := fun i => i.name == "eth1", setMifOk6 := fun _ => false,
    writeOk4 := fun i => i.name == "eth1", writeOk6 := fun _ => false }

/-- Witness for C9: per-interface failures notwithstanding, both interfaces
are written to on both families. -/
theorem sendquery_pack_error_only_witness :
    ((sendQuery true true [sampleIface1, sampleIface2] "windows"
        sampleSendEnv).getD ([], [])).1.map (fun w => (w.family, w.iface)) =
      [(4, sampleIface1), (4, sampleIface2), (6, sampleIface1), (6, sampleIface2)] := by
  have h := (sendquery_pack_error_only true true [sampleIface1, sampleIface2]
      "windows" sampleSendEnv).2
    ((sendQuery true true [sampleIface1, sampleIface2] "windows"
        sampleSendEnv).getD ([], [])) (by decide)
  rw [h]
  decide

/-! ### Source-address fallback is family-agnostic (C10) -/

/-- C10: `SrcAddr` is recorded only while processing an SRV record (a
datagram without SRV leaves every entry's SrcAddr empty), and the fallback
appends the recorded SrcAddr to AddrIPv4 without inspecting its length, so
a 16-byte IPv6 source address lands inside AddrIPv4. -/
theorem srcaddr_family_agnostic (p : lookupParams) (m : DnsMsg)
    (e : ServiceEntry) (hm : ∀ rr ∈ m.sections, rr.isSrv = false)
    (h4 : e.AddrIPv4 = []) (h6 : e.AddrIPv6 = []) (hs : e.SrcAddr ≠ [])
    (hne : p.toServiceRecord.ServiceTypeName ≠ p.toServiceRecord.ServiceName) :
    (∀ ke ∈ buildEntries p m, ke.2.SrcAddr = []) ∧
    emitOne p e = some { e with AddrIPv4 := e.AddrIPv4 ++ [e.SrcAddr] } := by
  refine ⟨buildEntries_srcAddr p m hm, ?_⟩
  unfold emitOne
  rw [if_pos hne, if_pos ⟨h4, h6⟩, if_neg hs]

/-- Witness for C10: the SRV-free address-only datagram records no SrcAddr,
and the entry resolved only via an IPv6 datagram source is emitted with that
16-byte address inside AddrIPv4. -/
theorem srcaddr_family_agnostic_witness :
    (∀ ke ∈ buildEntries sampleBrowseParams sampleAddrOnly, ke.2.SrcAddr = []) ∧
      emitOne sampleBrowseParams sampleV6SrcEntry =
        some { sampleV6SrcEntry with
                AddrIPv4 := sampleV6SrcEntry.AddrIPv4 ++ [sampleV6SrcEntry.SrcAddr] } :=
  srcaddr_family_agnostic sampleBrowseParams sampleAddrOnly sampleV6SrcEntry
    (by decide) (by decide) (by decide) (by decide) (by decide)

end Zeroconf
